import Mathlib

/-!
Verification of the EventAI interest matchmaker (src/main.py).

The core of the program is `find_top_3_interest_matches` (src/main.py lines
43-93): it loads the user records, locates the target user, and ranks every
other user by semantic interest overlap, computed with a sentence-embedding
model.  The embedding model (`SentenceTransformer("all-MiniLM-L6-v2")`) and
the cosine-similarity kernel (`util.pytorch_cos_sim`) are external library
capabilities, so they are modelled abstractly: an `EmbeddingModel` carries an
`encode` function from strings to rational vectors and a `cos` function on
vectors.  Everything the repository itself computes (record lookup, the
double loop building the shared-interest set, mean vectors, rounding,
sorting, truncation, the update endpoint) is embedded concretely.

Rationals stand in for Python floats; `round2` models `round(x, 2)`.
-/

namespace EventAI

/-- A user record from users.json.  `id` and `full_name` are accessed with
mandatory indexing (`u["id"]`, `user["full_name"]`); `email`, `job_title`,
`company` are read with `.get(..., "N/A")` and `interests` with
`.get("interests", [])`, so those four model the possibly-missing keys as
`Option`. -/
structure User where
  id : String
  full_name : String
  email : Option String
  job_title : Option String
  company : Option String
  interests : Option (List String)
deriving DecidableEq, Repr

/-- One entry of the list returned by `find_top_3_interest_matches`
(src/main.py lines 83-91). -/
structure MatchResult where
  user_id : String
  name : String
  email : String
  job_title : String
  company : String
  score : ℚ
  interests : List String
deriving DecidableEq, Repr

/-- Abstract interface to the external sentence-embedding capability:
`encode` is `model.encode` on a single string (the code encodes a list of
strings, yielding one vector per string), `cos` is `util.pytorch_cos_sim`
on a pair of vectors.  The repository does not define either, so they are
parameters of the development. -/
structure EmbeddingModel where
  encode : String → List ℚ
  cos : List ℚ → List ℚ → ℚ

/-- The two failure modes of the matcher.  The code raises `ValueError`
with two distinct messages (src/main.py lines 50 and 54); the spec names
them `NotFoundError` and `EmptyInterestsError`. -/
inductive MatchError where
  | notFound (user_id : String)
  | emptyInterests (user_id : String)
deriving DecidableEq, Repr

/-- Models `user.get("interests", [])` (src/main.py lines 52 and 63). -/
def getInterests (u : User) : List String :=
  u.interests.getD []

/-- Models `round(x, 2)`: round to two decimal places.  Python rounds ties to
even on binary floats; over ℚ we round ties up, which agrees everywhere
except exact ties. -/
def round2 (x : ℚ) : ℚ :=
  (round (x * 100) : ℚ) / 100

/-- Componentwise mean of a non-empty list of equal-length vectors:
`embeddings.mean(dim=0)` (src/main.py lines 79-80).  On `[]` (never
reached by the matcher) it returns `[]`. -/
def meanVec : List (List ℚ) → List ℚ
  | [] => []
  | v :: vs => (vs.foldl (List.zipWith (· + ·)) v).map (fun x => x / (vs.length + 1))

/-- The shared-interest set for one candidate (src/main.py lines 69-74):
the double loop adds `other_interest` to the set `common_interests`
whenever `sim_matrix[i][j] >= threshold`, i.e. whenever some target
interest is similar enough to it.  A Python set has no specified
iteration order; we realise the same set of strings as a duplicate-free
list. -/
def overlapList (M : EmbeddingModel) (threshold : ℚ)
    (target_interests other_interests : List String) : List String :=
  (other_interests.filter
    (fun o => target_interests.any
      (fun t => threshold ≤ M.cos (M.encode t) (M.encode o)))).dedup

/-- The body of the candidate loop (src/main.py lines 59-91) for one user:
`none` when the candidate is skipped (empty interests, line 64-65, or empty
shared set, line 76-77), otherwise the Match Result dict of lines 83-91. -/
def mkMatch (M : EmbeddingModel) (threshold : ℚ)
    (target_interests : List String) (u : User) : Option MatchResult :=
  let other_interests := getInterests u
  if other_interests = [] then none
  else
    let common_interests := overlapList M threshold target_interests other_interests
    if common_interests = [] then none
    else
      let target_mean := meanVec (target_interests.map M.encode)
      let other_mean := meanVec (other_interests.map M.encode)
      let similarity := M.cos target_mean other_mean
      some
        { user_id := u.id
          name := u.full_name
          email := u.email.getD "N/A"
          job_title := u.job_title.getD "N/A"
          company := u.company.getD "N/A"
          score := round2 (similarity * 100)
          interests := common_interests }

/-- Comparison used to model `sorted(matches, key=lambda x: x["score"],
reverse=True)` (src/main.py line 93): `a` may precede `b` iff
`b.score ≤ a.score`. -/
def scoreGE (a b : MatchResult) : Prop :=
  b.score ≤ a.score

instance : DecidableRel scoreGE :=
  fun a b => inferInstanceAs (Decidable (b.score ≤ a.score))

instance : IsTotal MatchResult scoreGE :=
  ⟨fun a b => le_total b.score a.score⟩

instance : IsTrans MatchResult scoreGE :=
  ⟨fun _ _ _ hab hbc => le_trans hbc hab⟩

/-- The matcher `find_top_3_interest_matches` (src/main.py lines 43-93), as a function
of the already-parsed record list.  Lines 48-50: locate the target, else
`ValueError` (spec: `NotFoundError`).  Lines 52-54: empty target interests
give `ValueError` (spec: `EmptyInterestsError`).  Lines 59-91: build one
Match Result per non-skipped other user.  Line 93: sort by score
descending and keep the first three.  Python's `sorted` is a stable sort;
a stable sort is determined extensionally by its comparator, so the
stable `List.insertionSort` realises it faithfully. -/
def find_top_3_interest_matches (M : EmbeddingModel) (user_id : String)
    (users : List User) (threshold : ℚ) :
    Except MatchError (List MatchResult) :=
  match users.find? (fun u => u.id == user_id) with
  | none => .error (.notFound user_id)
  | some target_user =>
    let target_interests := getInterests target_user
    if target_interests = [] then .error (.emptyInterests user_id)
    else
      let matchesList :=
        (users.filter (fun u => u.id != user_id)).filterMap
          (mkMatch M threshold target_interests)
      .ok ((matchesList.insertionSort scoreGE).take 3)

/-- The semantic Similarity Strategy of spec section 4.2 as the code realises
it inside `find_top_3_interest_matches`:
`overlap(target_interests, other_interests) -> (shared, score)` with the
shared set of src/main.py lines 69-74 and the mean-embedding score of lines
79-81 and 89. -/
def semanticOverlap (M : EmbeddingModel) (threshold : ℚ)
    (target_interests other_interests : List String) : List String × ℚ :=
  (overlapList M threshold target_interests other_interests,
   round2 (M.cos (meanVec (target_interests.map M.encode))
      (meanVec (other_interests.map M.encode)) * 100))

/-- Modelled from the spec: the exact-match Similarity Strategy variant of
spec section 4.2 is absent from src/main.py (the code hard-wires the
semantic variant into the matcher), so it is taken from the spec text:
shared is the case-sensitive set intersection of the two interest
collections and the score is the count of shared interests.  It exposes
the same `overlap` interface as `semanticOverlap`. -/
def exactOverlap (target_interests other_interests : List String) :
    List String × ℚ :=
  let shared := (target_interests.filter
    (fun t => other_interests.contains t)).dedup
  (shared, shared.length)

/-- The observable side effects of one invocation of
`find_top_3_interest_matches`. -/
inductive Effect where
  | loadModel
  | readRecordsFile
  | writeRecordsFile
deriving DecidableEq, Repr

/-- One call of `find_top_3_interest_matches` including its per-call effects:
line 44 constructs `SentenceTransformer("all-MiniLM-L6-v2")` (`loadModel`)
and lines 45-46 open and parse `json_path` (`readRecordsFile`) inside the
function body, so each invocation performs both before the pure
computation on the parsed records runs.  `parse` stands for `json.load`,
`fileContent` for the bytes of `json_path`. -/
def find_top_3_call (M : EmbeddingModel) (user_id : String)
    (parse : String → List User) (fileContent : String) (threshold : ℚ) :
    Except MatchError (List MatchResult) × List Effect :=
  (find_top_3_interest_matches M user_id (parse fileContent) threshold,
   [Effect.loadModel, Effect.readRecordsFile])

/-- The request body of `PUT /users/{user_id}` (src/main.py lines 20-25):
every field optional.  `Option.none` models a field *omitted* from the
request, matching `user_update.dict(exclude_unset=True)` on line 131. -/
structure UserUpdate where
  full_name : Option String
  email : Option String
  job_title : Option String
  company : Option String
  interests : Option (List String)
deriving DecidableEq, Repr

/-- The merge `{**user, **user_update.dict(exclude_unset=True)}` (src/main.py line
131): fields present in the update override the stored values, omitted
fields keep them; `id` is not a field of `UserUpdate`, so it always
survives. -/
def applyUpdate (u : User) (upd : UserUpdate) : User :=
  { id := u.id
    full_name := upd.full_name.getD u.full_name
    email := upd.email.or u.email
    job_title := upd.job_title.or u.job_title
    company := upd.company.or u.company
    interests := upd.interests.or u.interests }

/-- The endpoint `update_user` (src/main.py lines 126-135) over the stored record list:
scan for the first record with the requested id; on a hit, replace it by
the merged record, call `save_users` on the whole list and answer with the
merged record; if the scan falls through, answer 404 and never write.
The result pairs the HTTP outcome (`.ok` updated user / `.error 404`)
with the store contents after the call. -/
def update_user (user_id : String) (upd : UserUpdate) :
    List User → Except Nat User × List User
  | [] => (.error 404, [])
  | u :: rest =>
    if u.id == user_id then
      (.ok (applyUpdate u upd), applyUpdate u upd :: rest)
    else
      let r := update_user user_id upd rest
      (r.1, u :: r.2)

/-!
Concrete fixtures used by the witness theorems.  `wModel` embeds the three
vocabulary words of the spec's exact-match scenario as one-hot vectors and
uses the dot product as the similarity kernel, so "chess" matches "chess"
with similarity 1 and distinct words have similarity 0.
-/

def wModel : EmbeddingModel where
  encode := fun s =>
    [if s = "chess" then 1 else 0,
     if s = "hiking" then 1 else 0,
     if s = "reading" then 1 else 0]
  cos := fun v w => (List.zipWith (· * ·) v w).sum

def wTarget : User :=
  ⟨"user_001", "Target", none, none, none, some ["chess", "hiking"]⟩

def wAlice : User :=
  ⟨"user_A", "Alice", some "alice@example.com", none, none,
   some ["chess", "reading"]⟩

def wBob : User :=
  ⟨"user_B", "Bob", none, none, none, some ["hiking", "chess"]⟩

def wCarol : User :=
  ⟨"user_C", "Carol", none, none, none, some ["painting"]⟩

def wDan : User :=
  ⟨"user_D", "Dan", none, none, none, none⟩

def wUsers : List User :=
  [wTarget, wAlice, wBob, wCarol, wDan]

/-- The match list of the fixture run, for stating witnesses. -/
def wMatches : List MatchResult :=
  (find_top_3_interest_matches wModel "user_001" wUsers (6/10)).toOption.getD []

/-!
A second, minimal fixture whose single Match Result is reachable by kernel
reduction: every string embeds to the empty vector, the similarity kernel
is constantly 1 and the threshold is 0, so the one candidate matches.
-/

def vModel : EmbeddingModel where
  encode := fun _ => []
  cos := fun _ _ => 1

def vTarget : User := ⟨"t1", "Tess", none, none, none, some ["a"]⟩

def vOther : User := ⟨"u1", "Uri", none, none, none, some ["b"]⟩

def vUsers : List User := [vTarget, vOther]

def vMatches : List MatchResult :=
  (find_top_3_interest_matches vModel "t1" vUsers 0).toOption.getD []

/-- The one Match Result of the minimal fixture run. -/
def vm : MatchResult :=
  ⟨"u1", "Uri", "N/A", "N/A", "N/A", round2 (1 * 100), ["b"]⟩

/-!
Extraction lemmas: what a successful run of the matcher looks like.
-/

theorem mkMatch_some {M : EmbeddingModel} {t : ℚ} {ti : List String}
    {u : User} {m : MatchResult} (h : mkMatch M t ti u = some m) :
    m.user_id = u.id ∧ getInterests u ≠ [] ∧
      m.interests = overlapList M t ti (getInterests u) ∧ m.interests ≠ [] ∧
      m.score = round2 (M.cos (meanVec (ti.map M.encode))
        (meanVec ((getInterests u).map M.encode)) * 100) := by
  simp only [mkMatch] at h
  by_cases h1 : getInterests u = []
  · rw [if_pos h1] at h; cases h
  · rw [if_neg h1] at h
    by_cases h2 : overlapList M t ti (getInterests u) = []
    · rw [if_pos h2] at h; cases h
    · rw [if_neg h2] at h
      cases h
      exact ⟨rfl, h1, rfl, h2, rfl⟩

theorem find_ok_elim {M : EmbeddingModel} {uid : String} {users : List User}
    {t : ℚ} {ms : List MatchResult}
    (h : find_top_3_interest_matches M uid users t = .ok ms) :
    ∃ tu, users.find? (fun u => u.id == uid) = some tu ∧
      getInterests tu ≠ [] ∧
      ms = (((users.filter (fun u => u.id != uid)).filterMap
        (mkMatch M t (getInterests tu))).insertionSort scoreGE).take 3 := by
  unfold find_top_3_interest_matches at h
  revert h
  cases hf : users.find? (fun u => u.id == uid) with
  | none => intro h; cases h
  | some tu =>
    intro h
    by_cases he : getInterests tu = []
    · simp [he] at h
    · refine ⟨tu, rfl, he, ?_⟩
      simp only [he, if_neg, ite_false] at h
      cases h
      rfl

/-- A member of the returned list arises from some stored user other than
the target, via `mkMatch`. -/
theorem mem_ok_elim {M : EmbeddingModel} {uid : String} {users : List User}
    {t : ℚ} {ms : List MatchResult} {m : MatchResult}
    (h : find_top_3_interest_matches M uid users t = .ok ms) (hm : m ∈ ms) :
    ∃ tu, users.find? (fun u => u.id == uid) = some tu ∧
      ∃ u ∈ users, u.id ≠ uid ∧ mkMatch M t (getInterests tu) u = some m := by
  obtain ⟨tu, hf, hne, hms⟩ := find_ok_elim h
  subst hms
  have hm2 := List.mem_of_mem_take hm
  rw [List.mem_insertionSort] at hm2
  obtain ⟨u, hu, hmk⟩ := List.mem_filterMap.mp hm2
  obtain ⟨huu, hid⟩ := List.mem_filter.mp hu
  refine ⟨tu, hf, u, huu, ?_, hmk⟩
  simpa using hid

/-- C1: a successful run of `find_top_3_interest_matches` returns at most
three Match Results and none of them carries the target's id (src/main.py
lines 59-61 skip the target, line 93 truncates to three). -/
theorem find_top_3_limit_and_no_self (M : EmbeddingModel) (user_id : String)
    (users : List User) (threshold : ℚ) (ms : List MatchResult)
    (h : find_top_3_interest_matches M user_id users threshold = .ok ms) :
    ms.length ≤ 3 ∧ ∀ m ∈ ms, m.user_id ≠ user_id := by
  constructor
  · obtain ⟨tu, hf, hne, hms⟩ := find_ok_elim h
    subst hms
    simp [List.length_take]
  · intro m hm
    obtain ⟨tu, hf, u, hu, hid, hmk⟩ := mem_ok_elim h hm
    rw [(mkMatch_some hmk).1]
    exact hid

/-- Witness for C1 at the concrete fixture run. -/
theorem find_top_3_limit_and_no_self_witness :
    wMatches.length ≤ 3 ∧ ∀ m ∈ wMatches, m.user_id ≠ "user_001" :=
  find_top_3_limit_and_no_self wModel "user_001" wUsers (6/10) wMatches rfl

/-- C2: the scores in a successful result are non-increasing from head to
tail (line 93 sorts by score, descending). -/
theorem find_top_3_sorted_desc (M : EmbeddingModel) (user_id : String)
    (users : List User) (threshold : ℚ) (ms : List MatchResult)
    (h : find_top_3_interest_matches M user_id users threshold = .ok ms) :
    ms.Pairwise (fun a b => b.score ≤ a.score) := by
  obtain ⟨tu, hf, hne, hms⟩ := find_ok_elim h
  subst hms
  exact List.Pairwise.sublist (List.take_sublist 3 _)
    (List.sorted_insertionSort scoreGE _)

/-- Witness for C2 at the concrete fixture run. -/
theorem find_top_3_sorted_desc_witness :
    wMatches.Pairwise (fun a b => b.score ≤ a.score) :=
  find_top_3_sorted_desc wModel "user_001" wUsers (6/10) wMatches rfl

/-- C3: every returned Match Result has a non-empty `interests` list, it is
exactly the (non-empty) overlap set of the matched user — so a candidate
whose overlap set is empty is excluded entirely (lines 76-77) — and each
of its entries is one of that user's own interests (lines 69-74, 90). -/
theorem find_top_3_interests_nonempty_subset (M : EmbeddingModel)
    (user_id : String) (users : List User) (threshold : ℚ) (tu : User)
    (ms : List MatchResult)
    (h2 : users.find? (fun u => u.id == user_id) = some tu)
    (h : find_top_3_interest_matches M user_id users threshold = .ok ms) :
    ∀ m ∈ ms, m.interests ≠ [] ∧
      ∃ u ∈ users, u.id = m.user_id ∧
        m.interests = overlapList M threshold (getInterests tu) (getInterests u) ∧
        ∀ s ∈ m.interests, s ∈ getInterests u := by
  intro m hm
  obtain ⟨tu2, hf, u, hu, hid, hmk⟩ := mem_ok_elim h hm
  rw [h2] at hf
  cases hf
  obtain ⟨hmid, hune, hints, hne, hscore⟩ := mkMatch_some hmk
  refine ⟨hne, u, hu, hmid.symm, hints, ?_⟩
  intro s hs
  rw [hints] at hs
  unfold overlapList at hs
  rw [List.mem_dedup, List.mem_filter] at hs
  exact hs.1

/-- Witness for C3 at the minimal fixture's one Match Result. -/
theorem find_top_3_interests_nonempty_subset_witness :
    vm.interests ≠ [] ∧
      ∃ u ∈ vUsers, u.id = vm.user_id ∧
        vm.interests =
          overlapList vModel 0 (getInterests vTarget) (getInterests u) ∧
        ∀ s ∈ vm.interests, s ∈ getInterests u :=
  find_top_3_interests_nonempty_subset vModel "t1" vUsers 0
    vTarget vMatches rfl rfl vm (List.mem_singleton_self vm)

/-- C6: a string is in a returned shared-interest list exactly when it is
one of the matched user's own interests whose similarity with some target
interest reaches the threshold (the double loop of lines 71-74 adds
`other_interest`, never `target_interest`), and the list is
duplicate-free (set semantics, line 69). -/
theorem find_top_3_shared_set_semantics (M : EmbeddingModel)
    (user_id : String) (users : List User) (threshold : ℚ) (tu : User)
    (ms : List MatchResult)
    (h2 : users.find? (fun u => u.id == user_id) = some tu)
    (h : find_top_3_interest_matches M user_id users threshold = .ok ms) :
    ∀ m ∈ ms, m.interests.Nodup ∧
      ∃ u ∈ users, u.id = m.user_id ∧
        ∀ s, s ∈ m.interests ↔
          s ∈ getInterests u ∧ ∃ ti ∈ getInterests tu,
            threshold ≤ M.cos (M.encode ti) (M.encode s) := by
  intro m hm
  obtain ⟨tu2, hf, u, hu, hid, hmk⟩ := mem_ok_elim h hm
  rw [h2] at hf
  cases hf
  obtain ⟨hmid, hune, hints, hne, hscore⟩ := mkMatch_some hmk
  rw [hints]
  constructor
  · exact List.nodup_dedup _
  · refine ⟨u, hu, hmid.symm, ?_⟩
    intro s
    unfold overlapList
    rw [List.mem_dedup, List.mem_filter]
    simp

/-- Witness for C6 at the minimal fixture's one Match Result. -/
theorem find_top_3_shared_set_semantics_witness :
    vm.interests.Nodup ∧
      ∃ u ∈ vUsers, u.id = vm.user_id ∧
        ∀ s, s ∈ vm.interests ↔
          s ∈ getInterests u ∧ ∃ ti ∈ getInterests vTarget,
            (0 : ℚ) ≤ vModel.cos (vModel.encode ti) (vModel.encode s) :=
  find_top_3_shared_set_semantics vModel "t1" vUsers 0
    vTarget vMatches rfl rfl vm (List.mem_singleton_self vm)

/-- C7: the score of a returned Match Result is the cosine similarity of
the mean embedding of the target's full interest list and the mean
embedding of the matched user's full interest list, times 100, rounded to
two decimals (lines 79-81 and 89). -/
theorem find_top_3_score_formula (M : EmbeddingModel) (user_id : String)
    (users : List User) (threshold : ℚ) (tu : User) (ms : List MatchResult)
    (h2 : users.find? (fun u => u.id == user_id) = some tu)
    (h : find_top_3_interest_matches M user_id users threshold = .ok ms) :
    ∀ m ∈ ms, ∃ u ∈ users, u.id = m.user_id ∧
      m.score = round2 (M.cos (meanVec ((getInterests tu).map M.encode))
        (meanVec ((getInterests u).map M.encode)) * 100) := by
  intro m hm
  obtain ⟨tu2, hf, u, hu, hid, hmk⟩ := mem_ok_elim h hm
  rw [h2] at hf
  cases hf
  obtain ⟨hmid, hune, hints, hne, hscore⟩ := mkMatch_some hmk
  exact ⟨u, hu, hmid.symm, hscore⟩

/-- Witness for C7 at the minimal fixture's one Match Result. -/
theorem find_top_3_score_formula_witness :
    ∃ u ∈ vUsers, u.id = vm.user_id ∧
      vm.score = round2 (vModel.cos
        (meanVec ((getInterests vTarget).map vModel.encode))
        (meanVec ((getInterests u).map vModel.encode)) * 100) :=
  find_top_3_score_formula vModel "t1" vUsers 0
    vTarget vMatches rfl rfl vm (List.mem_singleton_self vm)

/-- C4: the matcher fails with `notFound` exactly when no stored record
carries the target id (lines 48-50), fails with `emptyInterests` exactly
when the target record exists but its effective interest list is empty
(lines 52-54), and otherwise returns normally — in particular a run that
finds no candidate still returns `.ok` (line 93 returns the, possibly
empty, sorted list; there is no error path past line 54). -/
theorem find_top_3_error_conditions (M : EmbeddingModel) (user_id : String)
    (users : List User) (threshold : ℚ) :
    (find_top_3_interest_matches M user_id users threshold =
        .error (.notFound user_id) ↔ ∀ u ∈ users, u.id ≠ user_id)
    ∧ (∀ tu, users.find? (fun u => u.id == user_id) = some tu →
        (find_top_3_interest_matches M user_id users threshold =
          .error (.emptyInterests user_id) ↔ getInterests tu = []))
    ∧ (∀ tu, users.find? (fun u => u.id == user_id) = some tu →
        getInterests tu ≠ [] →
        ∃ ms, find_top_3_interest_matches M user_id users threshold = .ok ms) := by
  unfold find_top_3_interest_matches
  refine ⟨?_, ?_, ?_⟩
  · cases hf : users.find? (fun u => u.id == user_id) with
    | none =>
      simp only [List.find?_eq_none] at hf
      simpa using hf
    | some tu =>
      have htu := List.find?_some hf
      have hmem := List.mem_of_find?_eq_some hf
      rw [beq_iff_eq] at htu
      constructor
      · intro h
        by_cases he : getInterests tu = [] <;> simp [he] at h
      · intro h
        exact absurd htu (h tu hmem)
  · intro tu hf
    rw [hf]
    by_cases he : getInterests tu = [] <;> simp [he]
  · intro tu hf he
    rw [hf]
    simp [he]

/-- Witness for C4: an id absent from an empty store gives `notFound`;
the fixture target with empty interests gives `emptyInterests`; the
fixture run returns `.ok`. -/
theorem find_top_3_error_conditions_witness :
    find_top_3_interest_matches wModel "user_404" [] (6/10) =
      .error (.notFound "user_404") ∧
    find_top_3_interest_matches wModel "user_D" [wDan] (6/10) =
      .error (.emptyInterests "user_D") ∧
    ∃ ms, find_top_3_interest_matches wModel "user_001" wUsers (6/10) =
      .ok ms :=
  ⟨(find_top_3_error_conditions wModel "user_404" [] (6/10)).1.mpr
      (by simp),
   ((find_top_3_error_conditions wModel "user_D" [wDan] (6/10)).2.1 wDan
      rfl).mpr rfl,
   (find_top_3_error_conditions wModel "user_001" wUsers (6/10)).2.2 wTarget
      rfl (by decide)⟩

/-- C10: a record whose `interests` key is missing behaves as if the list
were empty (`.get("interests", [])`, lines 52 and 63): as the target it
makes the matcher fail with `emptyInterests`, and as a candidate it is
silently skipped — every returned Match Result comes from a stored user
whose effective interest list is non-empty.  The embedding is a total
function, so no lookup error can escape. -/
theorem find_top_3_missing_interests_total (M : EmbeddingModel)
    (user_id : String) (users : List User) (threshold : ℚ) :
    (∀ u, users.find? (fun x => x.id == user_id) = some u →
        u.interests = none →
        find_top_3_interest_matches M user_id users threshold =
          .error (.emptyInterests user_id))
    ∧ (∀ ms, find_top_3_interest_matches M user_id users threshold = .ok ms →
        ∀ m ∈ ms, ∃ v ∈ users, v.id = m.user_id ∧ getInterests v ≠ []) := by
  constructor
  · intro u hf hnone
    unfold find_top_3_interest_matches
    rw [hf]
    have : getInterests u = [] := by simp [getInterests, hnone]
    simp [this]
  · intro ms h m hm
    obtain ⟨tu, hf, v, hv, hid, hmk⟩ := mem_ok_elim h hm
    obtain ⟨hmid, hvne, _⟩ := mkMatch_some hmk
    exact ⟨v, hv, hmid.symm, hvne⟩

/-- Witness for C10: `wDan` has no `interests` key; as target the call
fails with `emptyInterests`, and the fixture run's results all come from
users with non-empty interests. -/
theorem find_top_3_missing_interests_total_witness :
    find_top_3_interest_matches wModel "user_D" [wTarget, wDan] (6/10) =
      .error (.emptyInterests "user_D") ∧
    ∀ m ∈ wMatches, ∃ v ∈ wUsers, v.id = m.user_id ∧ getInterests v ≠ [] :=
  ⟨(find_top_3_missing_interests_total wModel "user_D" [wTarget, wDan]
      (6/10)).1 wDan rfl rfl,
   (find_top_3_missing_interests_total wModel "user_001" wUsers
      (6/10)).2 wMatches rfl⟩

/-- C9: `PUT /users/{id}` with an unknown id answers 404 and leaves the
store untouched (line 135 is reached without `save_users`); with a known
id it merges the update into the first matching record and persists the
store with only that record replaced (lines 129-134); the merged record
keeps its id and every field the request omitted, and takes every field
the request provided. -/
theorem update_user_partial_update (user_id : String) (upd : UserUpdate) :
    (∀ users : List User, (∀ u ∈ users, u.id ≠ user_id) →
        update_user user_id upd users = (.error 404, users))
    ∧ (∀ (pre : List User) (u : User) (post : List User),
        (∀ v ∈ pre, v.id ≠ user_id) → u.id = user_id →
        update_user user_id upd (pre ++ u :: post) =
          (.ok (applyUpdate u upd), pre ++ applyUpdate u upd :: post))
    ∧ (∀ u : User, (applyUpdate u upd).id = u.id
        ∧ (upd.full_name = none → (applyUpdate u upd).full_name = u.full_name)
        ∧ (upd.email = none → (applyUpdate u upd).email = u.email)
        ∧ (upd.job_title = none → (applyUpdate u upd).job_title = u.job_title)
        ∧ (upd.company = none → (applyUpdate u upd).company = u.company)
        ∧ (upd.interests = none → (applyUpdate u upd).interests = u.interests)
        ∧ (∀ v, upd.full_name = some v → (applyUpdate u upd).full_name = v)
        ∧ (∀ v, upd.email = some v → (applyUpdate u upd).email = some v)
        ∧ (∀ v, upd.job_title = some v → (applyUpdate u upd).job_title = some v)
        ∧ (∀ v, upd.company = some v → (applyUpdate u upd).company = some v)
        ∧ (∀ v, upd.interests = some v →
            (applyUpdate u upd).interests = some v)) := by
  refine ⟨?_, ?_, ?_⟩
  · intro users hno
    induction users with
    | nil => rfl
    | cons u rest ih =>
      have hu : u.id ≠ user_id := hno u (List.mem_cons_self u rest)
      have hrest := ih (fun v hv => hno v (List.mem_cons_of_mem u hv))
      simp only [update_user, beq_eq_false_iff_ne.mpr hu, Bool.false_eq_true,
        if_false, hrest]
  · intro pre u post hpre hu
    induction pre with
    | nil => simp [update_user, hu]
    | cons v rest ih =>
      have hv : v.id ≠ user_id := hpre v (List.mem_cons_self v rest)
      have hrest := ih (fun x hx => hpre x (List.mem_cons_of_mem v hx))
      simp only [List.cons_append, update_user,
        beq_eq_false_iff_ne.mpr hv, Bool.false_eq_true, if_false,
        List.append_eq, hrest]
  · intro u
    refine ⟨rfl, fun h => ?_, fun h => ?_, fun h => ?_, fun h => ?_,
      fun h => ?_, fun v hv => ?_, fun v hv => ?_, fun v hv => ?_,
      fun v hv => ?_, fun v hv => ?_⟩ <;> simp [applyUpdate, *]

/-- Witness for C9: updating the email of `wAlice` in a two-user store
changes exactly that field of that record; an unknown id gives 404 with
the store unchanged. -/
theorem update_user_partial_update_witness :
    update_user "user_X" ⟨none, some "new@example.com", none, none, none⟩
        [wTarget, wAlice] =
      (.error 404, [wTarget, wAlice]) ∧
    update_user "user_A" ⟨none, some "new@example.com", none, none, none⟩
        ([wTarget] ++ wAlice :: []) =
      (.ok (applyUpdate wAlice ⟨none, some "new@example.com", none, none, none⟩),
       [wTarget] ++
         applyUpdate wAlice ⟨none, some "new@example.com", none, none, none⟩
           :: []) ∧
    (applyUpdate wAlice
        ⟨none, some "new@example.com", none, none, none⟩).id = wAlice.id :=
  ⟨(update_user_partial_update "user_X"
      ⟨none, some "new@example.com", none, none, none⟩).1
      [wTarget, wAlice] (by decide),
   (update_user_partial_update "user_A"
      ⟨none, some "new@example.com", none, none, none⟩).2.1
      [wTarget] wAlice [] (by decide) rfl,
   ((update_user_partial_update "user_A"
      ⟨none, some "new@example.com", none, none, none⟩).2.2 wAlice).1⟩

/-- C5: the exact-match Similarity Strategy (spec-modelled, see
`exactOverlap`) on the spec's scenario: target `["chess","hiking"]`,
candidate A `["chess","reading"]`, candidate B `["hiking","chess"]`.
A's shared set is `{"chess"}` with score 1, B's is `{"chess","hiking"}`
with score 2, so B ranks at least as high as A.  `exactOverlap` exposes
the same `overlap` interface (`List String → List String → List String × ℚ`)
as `semanticOverlap M threshold`. -/
theorem exactOverlap_scenario :
    (exactOverlap ["chess", "hiking"] ["chess", "reading"]).1 = ["chess"] ∧
    (exactOverlap ["chess", "hiking"] ["chess", "reading"]).2 = 1 ∧
    (exactOverlap ["chess", "hiking"] ["hiking", "chess"]).1 =
      ["chess", "hiking"] ∧
    (exactOverlap ["chess", "hiking"] ["hiking", "chess"]).2 = 2 ∧
    (exactOverlap ["chess", "hiking"] ["chess", "reading"]).2 ≤
      (exactOverlap ["chess", "hiking"] ["hiking", "chess"]).2 := by
  have hsnd : ∀ t o : List String,
      (exactOverlap t o).2 = ((exactOverlap t o).1.length : ℚ) :=
    fun t o => rfl
  have hA : (exactOverlap ["chess", "hiking"] ["chess", "reading"]).1 =
      ["chess"] := by decide
  have hB : (exactOverlap ["chess", "hiking"] ["hiking", "chess"]).1 =
      ["chess", "hiking"] := by decide
  have hA2 : (exactOverlap ["chess", "hiking"] ["chess", "reading"]).2 = 1 := by
    rw [hsnd, hA]; norm_num
  have hB2 : (exactOverlap ["chess", "hiking"] ["hiking", "chess"]).2 = 2 := by
    rw [hsnd, hB]; norm_num
  exact ⟨hA, hA2, hB, hB2, by rw [hA2, hB2]; norm_num⟩

/-- C8 counterexample: the claim that the matcher is side-effect free and
that the embedding model is loaded once at startup fails on the code:
line 44 constructs the `SentenceTransformer` and lines 45-46 read the
records file inside `find_top_3_interest_matches`, so every single call
performs both effects.  Here one concrete invocation's effect trace
contains the model load and is not empty. -/
theorem find_top_3_call_reloads_model :
    Effect.loadModel ∈
      (find_top_3_call wModel "user_001" (fun _ => wUsers) "users.json"
        (6/10)).2 ∧
    (find_top_3_call wModel "user_001" (fun _ => wUsers) "users.json"
        (6/10)).2 ≠ [] := by
  constructor
  · exact List.mem_cons_self _ _
  · intro h
    cases h

/-- C8 amended: the value the matcher computes is a pure, deterministic
function of the parsed record snapshot and the inputs — two invocations
over equal snapshots return identical results — but each invocation also
re-loads the embedding model and re-reads the records file (it is not a
startup-loaded shared resource). -/
theorem find_top_3_call_deterministic_but_reloads (M : EmbeddingModel)
    (user_id : String) (parse parse2 : String → List User)
    (fileContent fileContent2 : String) (threshold : ℚ)
    (h : parse fileContent = parse2 fileContent2) :
    (find_top_3_call M user_id parse fileContent threshold).1 =
      (find_top_3_call M user_id parse2 fileContent2 threshold).1 ∧
    (find_top_3_call M user_id parse fileContent threshold).2 =
      [Effect.loadModel, Effect.readRecordsFile] := by
  constructor
  · unfold find_top_3_call
    rw [h]
  · rfl

/-- Witness for the amended C8 at two syntactically different loaders of
the same snapshot. -/
theorem find_top_3_call_deterministic_but_reloads_witness :
    (find_top_3_call wModel "user_001" (fun _ => wUsers) "users.json"
        (6/10)).1 =
      (find_top_3_call wModel "user_001" (fun _ => [wTarget, wAlice, wBob,
        wCarol, wDan]) "users_copy.json" (6/10)).1 ∧
    (find_top_3_call wModel "user_001" (fun _ => wUsers) "users.json"
        (6/10)).2 = [Effect.loadModel, Effect.readRecordsFile] :=
  find_top_3_call_deterministic_but_reloads wModel "user_001"
    (fun _ => wUsers) (fun _ => [wTarget, wAlice, wBob, wCarol, wDan])
    "users.json" "users_copy.json" (6/10) rfl

end EventAI
